import Mathlib

/-!
# Inventory stock-ledger engine: shallow embedding

A shallow embedding of the inventory engine of this repository
(`inventory/models.py`, `inventory/serializers.py`, `inventory/views.py`).

Conventions of the embedding:

* Django model rows become Lean structures; the database becomes an explicit
  `DB` state holding lists of rows.  Auto-increment primary keys are modelled
  by explicit `next_*` counters.
* Timestamps, surrogate users on rows, random identifiers (`receipt_number`,
  `material_id`), and free-text alert messages are elided; an alert instead
  carries a structured `kind` that mirrors which message the source builds.
* Fallible Python paths (Django `ValidationError` raised by `full_clean`,
  DRF serializer validation) become `Except` / explicit error results.
  `transaction.atomic` is modelled by returning the caller's unchanged state
  when the save body fails.
* `quantity`, `capacity`, `current_load` are `PositiveIntegerField`s, so they
  are `Nat`.  Quantities derived by subtraction (`available_quantity`) are
  `Int`, as in Python.
* Python object aliasing matters in this code: a `StockRecord` created by
  `get_or_create(..., storage_bin=storage_bin)` holds the very bin object the
  serializer holds, while a fetched record lazily reloads its bin from the
  database.  The embedding passes the in-memory bin object explicitly and
  returns its updated value where the source mutates it.
* The `0.9 * capacity` / `0.1 * capacity` thresholds are binary floating
  point in the source; they are modelled by the exact rational comparisons
  `10 * load ≥ 9 * capacity` / `10 * load ≤ capacity`.  No theorem below
  depends on a float-rounding boundary case.
-/

namespace Inventory

/-- The requesting user (`request.user`): only the fields the engine reads. -/
structure UserT where
  name : String
  email : String
deriving DecidableEq, Repr

/-- `inventory.models.Item` (fields the engine reads). -/
structure Item where
  id : Nat
  reserved_quantity : Nat
  min_stock_level : Nat
  expiry_date : Option Int := none
deriving DecidableEq, Repr

/-- `inventory.models.Warehouse` (fields the engine reads). -/
structure Warehouse where
  id : Nat
  code : String
  capacity : Nat
deriving DecidableEq, Repr

/-- `inventory.models.StorageBin`. -/
structure StorageBin where
  id : Nat
  bin_id : String
  capacity : Nat
  current_load : Nat
  warehouse : Option Nat
deriving DecidableEq, Repr

/-- `inventory.models.StockRecord`: one row per (item, bin). -/
structure StockRecord where
  item : Nat
  storage_bin : Nat
  quantity : Nat
deriving DecidableEq, Repr

/-- `StockMovement.movement_type`: `'IN'` or `'OUT'`. -/
inductive MovementType
  | inbound
  | outbound
deriving DecidableEq, Repr

/-- `inventory.models.StockMovement` (timestamp and user elided). -/
structure StockMovement where
  id : Nat
  item : Nat
  storage_bin : Nat
  movement_type : MovementType
  quantity : Nat
  notes : String
  warehouse_receipt : Option Nat
deriving DecidableEq, Repr

/-- `InventoryAlert.alert_type`. -/
inductive AlertType
  | warning
  | critical
deriving DecidableEq, Repr

/-- Which message the source formats for an alert (structured stand-in for
the free-text `message` field). -/
inductive AlertKind
  | lowStock
  | criticalLowStock
  | expiringSoon
  | expired
  | binFull
  | binNearFull
  | binEmpty
  | binNearEmpty
  | insufficientSpace
  | insufficientStock
  | reservationConflict
deriving DecidableEq, Repr

/-- `inventory.models.InventoryAlert` (user, timestamp, resolution elided). -/
structure InventoryAlert where
  alert_type : AlertType
  kind : AlertKind
  related_item : Option Nat
  related_bin : Option Nat
deriving DecidableEq, Repr

/-- `inventory.models.WarehouseReceipt` (receipt_number, created_by,
timestamps, and fields never read by a claim elided where noted). -/
structure WarehouseReceipt where
  id : Nat
  issued_from_warehouse : Nat
  issued_from_bin : Nat
  item : Nat
  quantity : Nat
  recipient : String
  purpose : String
  delivery_to : String
  transfer_order_no : String
  plant_site : String
  bin_location : String
  qty_picked : Nat
  qty_remaining : Int
  stock_movement : Option Nat
deriving DecidableEq, Repr

/-- The persistent store. -/
structure DB where
  items : List Item
  warehouses : List Warehouse
  bins : List StorageBin
  records : List StockRecord
  movements : List StockMovement
  alerts : List InventoryAlert
  receipts : List WarehouseReceipt
  next_movement_id : Nat
  next_receipt_id : Nat
  next_warehouse_id : Nat
  today : Int := 0
deriving DecidableEq, Repr

/-- Errors surfaced by the two entry points.  In the source all of these are
exceptions: DRF `ValidationError`s with distinguishing messages for the first
four, and an uncaught Django model `ValidationError` escaping
`full_clean` inside the save body for `modelIntegrity`. -/
inductive EngineError
  | invalidInput
  | capacityExceeded
  | insufficientStock
  | reservationConflict
  | modelIntegrity
deriving DecidableEq, Repr

/-- `Item.objects.get(id=...)`. -/
def findItem (db : DB) (i : Nat) : Option Item :=
  db.items.find? (fun x => x.id == i)

/-- `StorageBin.objects.get(id=...)`. -/
def findBin (db : DB) (b : Nat) : Option StorageBin :=
  db.bins.find? (fun x => x.id == b)

/-- `StockRecord.objects.filter(item=..., storage_bin=...).first()`. -/
def findRecord (db : DB) (i b : Nat) : Option StockRecord :=
  db.records.find? (fun r => r.item == i && r.storage_bin == b)

/-- `storage_bin.stock_records.aggregate(total=Sum('quantity'))`. -/
def binRecordSum (db : DB) (b : Nat) : Nat :=
  ((db.records.filter (fun r => r.storage_bin == b)).map (fun r => r.quantity)).sum

/-- `Item.total_quantity`: sum of the item's stock-record quantities. -/
def totalQuantity (db : DB) (i : Nat) : Nat :=
  ((db.records.filter (fun r => r.item == i)).map (fun r => r.quantity)).sum

/-- `Item.available_quantity`: total minus reserved (a Python int, so `Int`). -/
def availableQuantity (db : DB) (it : Item) : Int :=
  (totalQuantity db it.id : Int) - (it.reserved_quantity : Int)

/-- Row update by primary key (UPDATE of an existing bin row). -/
def putBin (bins : List StorageBin) (b : StorageBin) : List StorageBin :=
  bins.map (fun x => if x.id == b.id then b else x)

/-- Row upsert by the (item, storage_bin) unique key: an UPDATE when the row
exists, an INSERT otherwise. -/
def putRecord (recs : List StockRecord) (r : StockRecord) : List StockRecord :=
  if recs.any (fun x => x.item == r.item && x.storage_bin == r.storage_bin) then
    recs.map (fun x => if x.item == r.item && x.storage_bin == r.storage_bin then r else x)
  else
    recs ++ [r]

/-- `stock_record.delete()`. -/
def removeRecord (recs : List StockRecord) (i b : Nat) : List StockRecord :=
  recs.filter (fun x => !(x.item == i && x.storage_bin == b))

/-- `StorageBin.check_alerts` (models.py): full/near-full are an
`if`/`elif` pair, empty/near-empty another independent `if`/`elif` pair. -/
def checkBinAlerts (b : StorageBin) : List InventoryAlert :=
  (if b.current_load ≥ b.capacity then
    [{ alert_type := .critical, kind := .binFull, related_item := none, related_bin := some b.id }]
  else if 10 * b.current_load ≥ 9 * b.capacity then
    [{ alert_type := .warning, kind := .binNearFull, related_item := none, related_bin := some b.id }]
  else []) ++
  (if b.current_load == 0 then
    [{ alert_type := .warning, kind := .binEmpty, related_item := none, related_bin := some b.id }]
  else if 10 * b.current_load ≤ b.capacity then
    [{ alert_type := .warning, kind := .binNearEmpty, related_item := none, related_bin := some b.id }]
  else [])

/-- `Item.check_alerts` (models.py): low stock, critical low stock, expiry. -/
def checkItemAlerts (db : DB) (it : Item) : List InventoryAlert :=
  let total := totalQuantity db it.id
  (if total ≤ it.min_stock_level then
    [{ alert_type := .warning, kind := .lowStock, related_item := some it.id, related_bin := none }]
  else []) ++
  (if total > 0 ∧ 10 * total ≤ it.min_stock_level then
    [{ alert_type := .critical, kind := .criticalLowStock, related_item := some it.id, related_bin := none }]
  else []) ++
  (match it.expiry_date with
   | some d =>
     let days := d - db.today
     if 0 ≤ days ∧ days ≤ 7 then
       [{ alert_type := .warning, kind := .expiringSoon, related_item := some it.id, related_bin := none }]
     else if days < 0 then
       [{ alert_type := .critical, kind := .expired, related_item := some it.id, related_bin := none }]
     else []
   | none => [])

/-- `StorageBin.save` (models.py): `full_clean` (reject
`current_load > capacity`), write the row, then `check_alerts`. -/
def StorageBin.save (db : DB) (b : StorageBin) : Except EngineError DB :=
  if b.current_load > b.capacity then .error .modelIntegrity
  else .ok { db with
    bins := putBin db.bins b,
    alerts := db.alerts ++ checkBinAlerts b }

/-- `StockRecord.save` (models.py).  `binObj` is the in-memory
`self.storage_bin` object (the serializer's own bin object when the record
was created with it, a fresh database copy when the record was fetched).
`clean` computes `new_load = current_load - quantity + quantity`, i.e. the
object's `current_load` itself, and rejects it above capacity; then the row
is written, the bin's `current_load` is recomputed from the authoritative
sum and the bin saved, and `item.check_alerts` runs.  Returns the updated
state together with the (mutated) bin object. -/
def StockRecord.save (db : DB) (rec : StockRecord) (binObj : StorageBin) :
    Except EngineError (DB × StorageBin) :=
  if binObj.current_load > binObj.capacity then .error .modelIntegrity
  else
    let db1 : DB := { db with records := putRecord db.records rec }
    let binObj1 : StorageBin := { binObj with current_load := binRecordSum db1 rec.storage_bin }
    match StorageBin.save db1 binObj1 with
    | .error e => .error e
    | .ok db2 =>
      match findItem db2 rec.item with
      | some it => .ok ({ db2 with alerts := db2.alerts ++ checkItemAlerts db2 it }, binObj1)
      | none => .ok (db2, binObj1)

/-- `StockMovement.objects.create(...)`: `clean` requires a positive
quantity, then the ledger row is appended. -/
def createMovement (db : DB) (itemId binId : Nat) (mt : MovementType) (q : Nat)
    (notes : String) (receiptRef : Option Nat) : Except EngineError (DB × Nat) :=
  if q == 0 then .error .modelIntegrity
  else
    let m : StockMovement :=
      { id := db.next_movement_id, item := itemId, storage_bin := binId,
        movement_type := mt, quantity := q, notes := notes, warehouse_receipt := receiptRef }
    .ok ({ db with
      movements := db.movements ++ [m],
      next_movement_id := db.next_movement_id + 1 }, m.id)

/-- Save body of `StockInSerializer.save` (inside `transaction.atomic`).

`get_or_create` either fetches the existing (item, bin) row — whose lazily
loaded `storage_bin` is a *fresh* copy, leaving the serializer's bin object
stale — or creates a row with quantity 0 holding the serializer's very bin
object, so that `StockRecord.save`'s recompute mutates the object the
serializer then increments. -/
def stockInSave (db : DB) (item : Item) (bin : StorageBin) (q : Nat) (notes : String) :
    Except EngineError (DB × Nat) :=
  match findRecord db item.id bin.id with
  | some rec =>
    match findBin db bin.id with
    | none => .error .modelIntegrity
    | some freshBin =>
      match StockRecord.save db { rec with quantity := rec.quantity + q } freshBin with
      | .error e => .error e
      | .ok (db1, _) =>
        let binObj : StorageBin := { bin with current_load := bin.current_load + q }
        match StorageBin.save db1 binObj with
        | .error e => .error e
        | .ok db2 => createMovement db2 item.id bin.id .inbound q notes none
  | none =>
    match StockRecord.save db { item := item.id, storage_bin := bin.id, quantity := 0 } bin with
    | .error e => .error e
    | .ok (db1, binObj1) =>
      match StockRecord.save db1 { item := item.id, storage_bin := bin.id, quantity := q } binObj1 with
      | .error e => .error e
      | .ok (db2, binObj2) =>
        let binObj3 : StorageBin := { binObj2 with current_load := binObj2.current_load + q }
        match StorageBin.save db2 binObj3 with
        | .error e => .error e
        | .ok db3 => createMovement db3 item.id bin.id .inbound q notes none

/-- `StockInSerializer`: field validation (`quantity ≥ 1`), `validate`
(existence of item and bin, `quantity ≤ capacity - current_load`, with a
CRITICAL alert recorded for a rejected request), then the atomic save body —
whose failure rolls the state back but still reports an error. -/
def stockIn (db : DB) (itemId binId q : Nat) (notes : String) :
    DB × Except EngineError Nat :=
  if q < 1 then (db, .error .invalidInput)
  else
    match findItem db itemId, findBin db binId with
    | none, _ => (db, .error .invalidInput)
    | some _, none => (db, .error .invalidInput)
    | some item, some bin =>
      if (q : Int) > (bin.capacity : Int) - (bin.current_load : Int) then
        ({ db with alerts := db.alerts ++
            [{ alert_type := .critical, kind := .insufficientSpace,
               related_item := some item.id, related_bin := some bin.id }] },
         .error .capacityExceeded)
      else
        match stockInSave db item bin q notes with
        | .ok (db1, mid) => (db1, .ok mid)
        | .error e => (db, .error e)

/-- Recipient fallback in `StockOutSerializer.save`: a blank recipient falls
back to `notes`, then `user.name or user.email or 'Unknown Recipient'`
(Python `or` treats the empty string as falsy). -/
def resolveRecipient (recipient notes : String) (user : UserT) : String :=
  if recipient ≠ "" then recipient
  else if notes ≠ "" then notes
  else if user.name ≠ "" then user.name
  else if user.email ≠ "" then user.email
  else "Unknown Recipient"

/-- The snapshot recomputation performed at the top of `WarehouseReceipt.save`
(models.py): since `self.item` is always set on the receipts this engine
builds, every save refreshes `bin_location`, `plant_site` and
`qty_remaining` from the current related rows before the row is written. -/
def recomputeSnapshot (db : DB) (r : WarehouseReceipt) : WarehouseReceipt :=
  { r with
    bin_location := match findBin db r.issued_from_bin with
      | some b => b.bin_id
      | none => r.bin_location,
    plant_site := match db.warehouses.find? (fun w => w.id == r.issued_from_warehouse) with
      | some w => w.code
      | none => r.plant_site,
    qty_remaining := match findItem db r.item with
      | some it => availableQuantity db it
      | none => r.qty_remaining }

/-- `WarehouseReceipt.save` (models.py): receipt-number generation elided;
recompute the snapshot fields, then write the row (INSERT for a fresh
primary key, UPDATE otherwise). -/
def WarehouseReceipt.save (db : DB) (r : WarehouseReceipt) : DB × WarehouseReceipt :=
  if db.receipts.any (fun x => x.id == (recomputeSnapshot db r).id) then
    ({ db with
        receipts := db.receipts.map
          (fun x => if x.id == (recomputeSnapshot db r).id then recomputeSnapshot db r else x) },
     recomputeSnapshot db r)
  else
    ({ db with
        receipts := db.receipts ++ [recomputeSnapshot db r],
        next_receipt_id := db.next_receipt_id + 1 },
     recomputeSnapshot db r)

/-- `Warehouse.objects.get_or_create(... code="WH-DEFAULT",
defaults={'capacity': 1000})` — the default-warehouse fallback of
`StockOutSerializer.save` (looked up here by its unique code). -/
def getOrCreateDefaultWarehouse (db : DB) : DB × Nat :=
  match db.warehouses.find? (fun w => w.code == "WH-DEFAULT") with
  | some w => (db, w.id)
  | none =>
    let w : Warehouse := { id := db.next_warehouse_id, code := "WH-DEFAULT", capacity := 1000 }
    ({ db with
      warehouses := db.warehouses ++ [w],
      next_warehouse_id := db.next_warehouse_id + 1 }, w.id)

/-- First step of `StockOutSerializer.save`: decrement the fetched stock
record, deleting it at zero (a `delete()` performs no recompute), otherwise
saving it (which recomputes the bin load from the sum through a freshly
loaded bin object, leaving the serializer's object stale). -/
def stockOutDecrement (db : DB) (bin : StorageBin) (rec : StockRecord) (q : Nat) :
    Except EngineError DB :=
  if rec.quantity - q == 0 then
    .ok { db with records := removeRecord db.records rec.item rec.storage_bin }
  else
    match findBin db bin.id with
    | none => .error .modelIntegrity
    | some freshBin =>
      match StockRecord.save db { rec with quantity := rec.quantity - q } freshBin with
      | .error e => .error e
      | .ok (db1, _) => .ok db1

/-- Warehouse-attachment step of `StockOutSerializer.save`: when the
serializer's bin object has no warehouse, attach the default fallback
warehouse and save the bin once from inside the branch. -/
def stockOutAttachWarehouse (db : DB) (binObj : StorageBin) :
    Except EngineError (DB × StorageBin × Nat) :=
  match binObj.warehouse with
  | some wid => .ok (db, binObj, wid)
  | none =>
    let dw := getOrCreateDefaultWarehouse db
    let binObj1 : StorageBin := { binObj with warehouse := some dw.2 }
    match StorageBin.save dw.1 binObj1 with
    | .error e => .error e
    | .ok db2 => .ok (db2, binObj1, dw.2)

/-- The receipt row as first built by `WarehouseReceipt.objects.create(...)`
in `StockOutSerializer.save`: every field comes from the serializer's
in-memory objects right after the stock decrement and the bin save
(`binObj2` is the serializer's bin object at that point), with the
timestamped temporary transfer-order number elided to a fixed suffix. -/
def mkStockOutReceipt (db3 : DB) (item : Item) (binObj2 : StorageBin) (wid q : Nat)
    (user : UserT) (notes recipient : String) : WarehouseReceipt :=
  { id := db3.next_receipt_id,
    issued_from_warehouse := wid,
    issued_from_bin := binObj2.id,
    item := item.id,
    quantity := q,
    recipient := resolveRecipient recipient notes user,
    purpose := if notes ≠ "" then notes else "Stock out",
    delivery_to := resolveRecipient recipient notes user,
    transfer_order_no := "TO-" ++ toString item.id ++ "-TMP",
    plant_site := match db3.warehouses.find? (fun w => w.id == wid) with
      | some w => w.code
      | none => "",
    bin_location := binObj2.bin_id,
    qty_picked := q,
    qty_remaining := availableQuantity db3 item,
    stock_movement := none }

/-- Save body of `StockOutSerializer.save` (inside `transaction.atomic`):
decrement/delete the record, set the stale bin object's `current_load` to
`max 0 (current_load - quantity)` (Nat subtraction), attach a warehouse if
missing, save the bin, create the receipt (whose model save recomputes the
snapshot fields), create the OUT movement linked to the receipt, then
re-save the receipt with the movement reference and the final transfer
order number.  Returns (state, movement id, receipt id). -/
def stockOutSave (db : DB) (item : Item) (bin : StorageBin) (rec : StockRecord) (q : Nat)
    (user : UserT) (notes recipient : String) :
    Except EngineError (DB × Nat × Nat) :=
  match stockOutDecrement db bin rec q with
  | .error e => .error e
  | .ok db1 =>
    match stockOutAttachWarehouse db1 { bin with current_load := bin.current_load - q } with
    | .error e => .error e
    | .ok (db2, binObj2, wid) =>
      match StorageBin.save db2 binObj2 with
      | .error e => .error e
      | .ok db3 =>
        match WarehouseReceipt.save db3
            (mkStockOutReceipt db3 item binObj2 wid q user notes recipient) with
        | (db4, r1) =>
          match createMovement db4 item.id binObj2.id .outbound q notes (some r1.id) with
          | .error e => .error e
          | .ok (db5, mid) =>
            match WarehouseReceipt.save db5
                { r1 with
                  stock_movement := some mid,
                  transfer_order_no := "TO-" ++ toString mid } with
            | (db6, _) => .ok (db6, mid, r1.id)

/-- `StockOutSerializer` (the second, effective definition in the source):
field validation (`quantity ≥ 1`), `validate` — existence of item and bin;
the per-bin stock check, emitting a CRITICAL alert referencing both bin and
item on failure; then the reservation check against the item's global
`available_quantity`, emitting a WARNING alert referencing the item — and
finally the atomic save body, whose failure rolls the state back. -/
def stockOut (db : DB) (itemId binId q : Nat) (user : UserT) (notes recipient : String) :
    DB × Except EngineError (Nat × Nat) :=
  if q < 1 then (db, .error .invalidInput)
  else
    match findItem db itemId, findBin db binId with
    | none, _ => (db, .error .invalidInput)
    | some _, none => (db, .error .invalidInput)
    | some item, some bin =>
      match findRecord db itemId binId with
      | none =>
        ({ db with alerts := db.alerts ++
            [{ alert_type := .critical, kind := .insufficientStock,
               related_item := some item.id, related_bin := some bin.id }] },
         .error .insufficientStock)
      | some rec =>
        if rec.quantity < q then
          ({ db with alerts := db.alerts ++
              [{ alert_type := .critical, kind := .insufficientStock,
                 related_item := some item.id, related_bin := some bin.id }] },
           .error .insufficientStock)
        else if (q : Int) > availableQuantity db item then
          ({ db with alerts := db.alerts ++
              [{ alert_type := .warning, kind := .reservationConflict,
                 related_item := some item.id, related_bin := none }] },
           .error .reservationConflict)
        else
          match stockOutSave db item bin rec q user notes recipient with
          | .ok (db1, mid, rid) => (db1, .ok (mid, rid))
          | .error e => (db, .error e)

/-- One call to either entry point, for reasoning about call sequences. -/
inductive Op
  | opIn (itemId binId q : Nat) (notes : String)
  | opOut (itemId binId q : Nat) (user : UserT) (notes recipient : String)
deriving DecidableEq, Repr

/-- Whether an `Except` result is a success. -/
def isOk : Except EngineError α → Bool
  | .ok _ => true
  | .error _ => false

/-- Run one call; the flag records whether it completed successfully. -/
def applyOp (db : DB) : Op → DB × Bool
  | .opIn i b q n =>
    let r := stockIn db i b q n
    (r.1, isOk r.2)
  | .opOut i b q u n rc =>
    let r := stockOut db i b q u n rc
    (r.1, isOk r.2)

/-- Run a sequence of calls. -/
def runOps (db : DB) : List Op → DB
  | [] => db
  | op :: rest => runOps (applyOp db op).1 rest

/-- Number of calls in the sequence that complete successfully. -/
def successCount (db : DB) : List Op → Nat
  | [] => 0
  | op :: rest =>
    (if (applyOp db op).2 then 1 else 0) + successCount (applyOp db op).1 rest

instance {ε α : Type} [DecidableEq ε] [DecidableEq α] : DecidableEq (Except ε α) := by
  intro a b
  cases a <;> cases b
  case error.error e f =>
    exact if h : e = f then .isTrue (by rw [h]) else .isFalse (by simp [h])
  case error.ok e x => exact .isFalse (by simp)
  case ok.error x e => exact .isFalse (by simp)
  case ok.ok x y =>
    exact if h : x = y then .isTrue (by rw [h]) else .isFalse (by simp [h])

/-! ### Concrete states used by counterexamples and witnesses -/

/-- A requesting user. -/
def user0 : UserT := ⟨"Alice", "alice@example.com"⟩

/-- A requesting user with neither name nor email. -/
def userBlank : UserT := ⟨"", ""⟩

/-- An item with nothing reserved. -/
def item1 : Item := { id := 1, reserved_quantity := 0, min_stock_level := 0 }

/-- A warehouse. -/
def wh1 : Warehouse := { id := 1, code := "WH-1", capacity := 1000 }

/-- An empty bin of capacity 100 attached to `wh1`. -/
def bin1 : StorageBin :=
  { id := 1, bin_id := "BIN-1", capacity := 100, current_load := 0, warehouse := some 1 }

/-- A store with one item, one warehouse, one empty bin, and no history. -/
def db0 : DB :=
  { items := [item1], warehouses := [wh1], bins := [bin1], records := [], movements := [],
    alerts := [], receipts := [], next_movement_id := 0, next_receipt_id := 0,
    next_warehouse_id := 2 }

/-! ### C1, C2, C3: the stock-in double add -/

/-- **C1.** The capacity invariant fails on the code: from a consistent
state (empty bin of capacity 100, no stock record), `stockIn` of 10 commits
(`.ok`) a state whose bin `current_load` is 20 while the sum of the stock
records referencing the bin is 10.  `StockInSerializer.save` adds the
quantity on top of the recompute `StockRecord.save` already performed
through the shared in-memory bin object, so the committed denormalized load
double-counts the first stock-in into a fresh (item, bin) record. -/
theorem c1_commit_breaks_load_sum_invariant :
    isOk (stockIn db0 1 1 10 "").2 = true ∧
    (findBin (stockIn db0 1 1 10 "").1 1).map StorageBin.current_load = some 20 ∧
    binRecordSum (stockIn db0 1 1 10 "").1 1 = 10 := by decide

/-- **C2.** Scenario A fails on the code: with bin capacity 100 and
`current_load` 0, `stockIn` of 100 units passes serializer validation
(`quantity ≤ free_space`) but the save body raises an uncaught model
`ValidationError` (the serializer sets the shared bin object's load to
0 + 100 + 100 = 200 > 100), so the call errors and the transaction rolls
everything back instead of succeeding with `current_load` 100. -/
theorem c2_scenarioA_exact_fill_fails :
    (stockIn db0 1 1 100 "").2 = .error .modelIntegrity ∧
    (stockIn db0 1 1 100 "").1 = db0 := by decide

/-- **C3.** Conservation fails on the code: on a fresh (item, bin) pair in
an empty bin, a successful `stockIn` of 10 followed by a successful
`stockOut` of 10 leaves no stock record for the pair, but the bin's
`current_load` ends at 10, not at its prior value 0 — the stock-in had
committed a double-counted load of 20 which the stock-out only reduces
by 10. -/
theorem c3_round_trip_leaves_drifted_load :
    isOk (stockIn db0 1 1 10 "").2 = true ∧
    isOk (stockOut (stockIn db0 1 1 10 "").1 1 1 10 user0 "" "").2 = true ∧
    findRecord (stockOut (stockIn db0 1 1 10 "").1 1 1 10 user0 "" "").1 1 1 = none ∧
    (findBin (stockOut (stockIn db0 1 1 10 "").1 1 1 10 user0 "" "").1 1).map
      StorageBin.current_load = some 10 ∧
    (findBin db0 1).map StorageBin.current_load = some 0 := by decide

/-! ### C6: full/near-full alerts are an if/elif pair, not independent -/

/-- A bin exactly at capacity. -/
def binFull10 : StorageBin :=
  { id := 1, bin_id := "B-1", capacity := 10, current_load := 10, warehouse := none }

/-- A store holding only `binFull10`, with no alerts yet. -/
def dbC6 : DB :=
  { items := [], warehouses := [], bins := [binFull10], records := [], movements := [],
    alerts := [], receipts := [], next_movement_id := 0, next_receipt_id := 0,
    next_warehouse_id := 0 }

/-- **C6 counterexample.** A committed write of a bin whose `current_load`
equals its capacity (10/10, so also ≥ 0.9 × capacity) creates exactly one
alert — the CRITICAL "full" one — and no WARNING "near full" alert: the two
rules are an `if`/`elif` chain in `StorageBin.check_alerts`, not
independently evaluated as the claim states. -/
theorem c6_counterexample_full_bin_single_alert :
    (StorageBin.save dbC6 binFull10).map DB.alerts =
      .ok [{ alert_type := .critical, kind := .binFull,
             related_item := none, related_bin := some 1 }] := by decide

/-! ### List-level helper lemmas -/

theorem any_receipt_id_eq_false {l : List WarehouseReceipt} {n : Nat}
    (h : ∀ x ∈ l, x.id < n) : l.any (fun x => x.id == n) = false := by
  simp only [List.any_eq_false, beq_iff_eq]
  intro x hx
  exact Nat.ne_of_lt (h x hx)

theorem map_receipt_replace_of_ne {l : List WarehouseReceipt} {i : Nat} {r : WarehouseReceipt}
    (h : ∀ x ∈ l, x.id ≠ i) : l.map (fun x => if x.id == i then r else x) = l := by
  induction l with
  | nil => rfl
  | cons a t ih =>
    simp only [List.map_cons]
    rw [if_neg (by simp only [beq_iff_eq]; exact h a (List.mem_cons_self a t)),
      ih (fun x hx => h x (List.mem_cons_of_mem a hx))]

theorem exists_id_putBin {bins : List StorageBin} {b : StorageBin} {i : Nat}
    (hex : ∃ x ∈ bins, x.id = i) : ∃ x ∈ putBin bins b, x.id = i := by
  obtain ⟨x, hx, hxi⟩ := hex
  by_cases hb : x.id = b.id
  · refine ⟨b, List.mem_map.mpr ⟨x, hx, ?_⟩, by rw [← hb, hxi]⟩
    simp [hb]
  · refine ⟨x, List.mem_map.mpr ⟨x, hx, ?_⟩, hxi⟩
    simp [hb]

theorem find_putBin {bins : List StorageBin} {b : StorageBin}
    (hex : ∃ x ∈ bins, x.id = b.id) :
    (putBin bins b).find? (fun x => x.id == b.id) = some b := by
  induction bins with
  | nil => simp at hex
  | cons a t ih =>
    simp only [putBin, List.map_cons]
    by_cases hid : a.id = b.id
    · rw [if_pos (by simp [hid])]
      exact List.find?_cons_of_pos _ (by simp)
    · rw [if_neg (by simp [hid])]
      rw [List.find?_cons_of_neg _ (by simp [hid])]
      obtain ⟨x, hx, hxi⟩ := hex
      rcases List.mem_cons.mp hx with hxa | hxt
      · exact absurd (hxa ▸ hxi) hid
      · exact ih ⟨x, hxt, hxi⟩

/-! ### Characterization of the elementary save steps -/

theorem save_bin_ok {db db' : DB} {b : StorageBin}
    (h : StorageBin.save db b = .ok db') :
    b.current_load ≤ b.capacity ∧
    db' = { db with bins := putBin db.bins b, alerts := db.alerts ++ checkBinAlerts b } := by
  unfold StorageBin.save at h
  split at h
  · exact absurd h (by simp)
  next hc =>
    refine ⟨by omega, ?_⟩
    injection h with h
    exact h.symm

theorem stock_record_save_ok {db db' : DB} {rec : StockRecord} {binObj binObj' : StorageBin}
    (h : StockRecord.save db rec binObj = .ok (db', binObj')) :
    binObj' = { binObj with
      current_load := binRecordSum { db with records := putRecord db.records rec } rec.storage_bin } ∧
    db'.records = putRecord db.records rec ∧
    db'.bins = putBin db.bins binObj' ∧
    db'.movements = db.movements ∧
    db'.receipts = db.receipts ∧
    db'.items = db.items ∧
    db'.warehouses = db.warehouses ∧
    db'.next_movement_id = db.next_movement_id ∧
    db'.next_receipt_id = db.next_receipt_id ∧
    db'.next_warehouse_id = db.next_warehouse_id := by
  simp only [StockRecord.save] at h
  split at h
  · exact absurd h (by simp)
  next hload =>
    split at h
    · exact absurd h (by simp)
    next db2 hsave =>
      obtain ⟨hle, hdb2⟩ := save_bin_ok hsave
      subst hdb2
      split at h
      all_goals
        injection h with h
        injection h with h1 h2
        subst h1
        subst h2
        exact ⟨rfl, rfl, rfl, rfl, rfl, rfl, rfl, rfl, rfl, rfl⟩

theorem create_movement_ok {db db' : DB} {i b : Nat} {mt : MovementType} {q : Nat}
    {notes : String} {ref : Option Nat} {mid : Nat}
    (h : createMovement db i b mt q notes ref = .ok (db', mid)) :
    mid = db.next_movement_id ∧
    db' = { db with
      movements := db.movements ++
        [{ id := db.next_movement_id, item := i, storage_bin := b, movement_type := mt,
           quantity := q, notes := notes, warehouse_receipt := ref }],
      next_movement_id := db.next_movement_id + 1 } := by
  unfold createMovement at h
  split at h
  · exact absurd h (by simp)
  · injection h with h
    obtain ⟨h1, h2⟩ := Prod.mk.injEq .. ▸ h
    exact ⟨h2.symm, h1.symm⟩

theorem findBin_id {db : DB} {i : Nat} {b : StorageBin} (h : findBin db i = some b) :
    b.id = i := by
  unfold findBin at h
  simpa using List.find?_some h

theorem findItem_id {db : DB} {i : Nat} {it : Item} (h : findItem db i = some it) :
    it.id = i := by
  unfold findItem at h
  simpa using List.find?_some h

theorem findBin_mem {db : DB} {i : Nat} {b : StorageBin} (h : findBin db i = some b) :
    ∃ x ∈ db.bins, x.id = i := by
  unfold findBin at h
  exact ⟨b, List.mem_of_find?_eq_some h, findBin_id h⟩

theorem recomputeSnapshot_id (db : DB) (r : WarehouseReceipt) :
    (recomputeSnapshot db r).id = r.id := rfl

theorem receipt_save_fresh {db : DB} {r : WarehouseReceipt}
    (hfresh : ∀ x ∈ db.receipts, x.id < db.next_receipt_id)
    (hr : r.id = db.next_receipt_id) :
    WarehouseReceipt.save db r =
      ({ db with
          receipts := db.receipts ++ [recomputeSnapshot db r],
          next_receipt_id := db.next_receipt_id + 1 },
       recomputeSnapshot db r) := by
  have hfalse : db.receipts.any (fun x => x.id == (recomputeSnapshot db r).id) = false := by
    simp only [recomputeSnapshot_id, hr]
    exact any_receipt_id_eq_false hfresh
  unfold WarehouseReceipt.save
  rw [if_neg (by simp [hfalse])]

theorem receipt_save_present {db : DB} {r : WarehouseReceipt}
    (hp : db.receipts.any (fun x => x.id == r.id) = true) :
    WarehouseReceipt.save db r =
      ({ db with
          receipts := db.receipts.map
            (fun x => if x.id == r.id then recomputeSnapshot db r else x) },
       recomputeSnapshot db r) := by
  unfold WarehouseReceipt.save
  simp only [recomputeSnapshot_id]
  rw [if_pos hp]

theorem stock_out_decrement_ok {db db1 : DB} {bin : StorageBin} {rec : StockRecord} {q : Nat}
    (h : stockOutDecrement db bin rec q = .ok db1) :
    db1.records = (if rec.quantity - q = 0 then
        removeRecord db.records rec.item rec.storage_bin
      else putRecord db.records { rec with quantity := rec.quantity - q }) ∧
    db1.movements = db.movements ∧
    db1.receipts = db.receipts ∧
    db1.items = db.items ∧
    db1.warehouses = db.warehouses ∧
    db1.next_movement_id = db.next_movement_id ∧
    db1.next_receipt_id = db.next_receipt_id ∧
    db1.next_warehouse_id = db.next_warehouse_id ∧
    (db1.bins = db.bins ∨ ∃ b1, db1.bins = putBin db.bins b1 ∧ b1.id = bin.id) := by
  unfold stockOutDecrement at h
  split at h
  next hz =>
    injection h with h
    subst h
    refine ⟨by rw [if_pos (by simpa using hz)], rfl, rfl, rfl, rfl, rfl, rfl, rfl, Or.inl rfl⟩
  next hnz =>
    split at h
    · exact absurd h (by simp)
    next freshBin hfind =>
      split at h
      · exact absurd h (by simp)
      next dbx binx hsave =>
        injection h with h
        subst h
        obtain ⟨hbinx, hrecs, hbins, hmov, hrc, hit, hwh, hnm, hnr, hnw⟩ :=
          stock_record_save_ok hsave
        have hz : ¬ rec.quantity - q = 0 := by simpa using hnz
        refine ⟨by rw [if_neg hz]; exact hrecs, hmov, hrc, hit, hwh, hnm, hnr, hnw, ?_⟩
        refine Or.inr ⟨binx, hbins, ?_⟩
        rw [hbinx]
        simpa using findBin_id hfind

theorem attach_warehouse_ok {db db2 : DB} {binObj binObj2 : StorageBin} {wid : Nat}
    (h : stockOutAttachWarehouse db binObj = .ok (db2, binObj2, wid)) :
    binObj2.id = binObj.id ∧
    binObj2.bin_id = binObj.bin_id ∧
    binObj2.capacity = binObj.capacity ∧
    binObj2.current_load = binObj.current_load ∧
    binObj2.warehouse = some wid ∧
    db2.records = db.records ∧
    db2.movements = db.movements ∧
    db2.receipts = db.receipts ∧
    db2.items = db.items ∧
    db2.next_movement_id = db.next_movement_id ∧
    db2.next_receipt_id = db.next_receipt_id ∧
    (db2.bins = db.bins ∨ ∃ b1, db2.bins = putBin db.bins b1 ∧ b1.id = binObj.id) ∧
    ((db2.warehouses = db.warehouses ∧ db2.next_warehouse_id = db.next_warehouse_id) ∨
      (db2.warehouses = db.warehouses ++
          [{ id := db.next_warehouse_id, code := "WH-DEFAULT", capacity := 1000 }] ∧
        db2.next_warehouse_id = db.next_warehouse_id + 1)) ∧
    (∀ w0, binObj.warehouse = some w0 → wid = w0 ∧ db2 = db ∧ binObj2 = binObj) := by
  simp only [stockOutAttachWarehouse] at h
  split at h
  next wid0 hw =>
    injection h with h
    injection h with h1 h
    injection h with h2 h3
    subst h1
    subst h2
    subst h3
    refine ⟨rfl, rfl, rfl, rfl, hw, rfl, rfl, rfl, rfl, rfl, rfl, Or.inl rfl,
      Or.inl ⟨rfl, rfl⟩, ?_⟩
    intro w0 hw0
    rw [hw0] at hw
    injection hw with hw
    exact ⟨hw.symm, rfl, rfl⟩
  next hwnone =>
    cases hfind : db.warehouses.find? (fun w => w.code == "WH-DEFAULT") with
    | some w =>
      simp only [getOrCreateDefaultWarehouse, hfind] at h
      split at h
      · exact absurd h (by simp)
      next db3 hsave =>
        obtain ⟨hle, hdb3⟩ := save_bin_ok hsave
        subst hdb3
        injection h with h
        injection h with h1 h
        injection h with h2 h3
        subst h1
        subst h2
        subst h3
        refine ⟨rfl, rfl, rfl, rfl, rfl, rfl, rfl, rfl, rfl, rfl, rfl,
          Or.inr ⟨_, rfl, rfl⟩, Or.inl ⟨rfl, rfl⟩, ?_⟩
        intro w0 hw0
        rw [hwnone] at hw0
        cases hw0
    | none =>
      simp only [getOrCreateDefaultWarehouse, hfind] at h
      split at h
      · exact absurd h (by simp)
      next db3 hsave =>
        obtain ⟨hle, hdb3⟩ := save_bin_ok hsave
        subst hdb3
        injection h with h
        injection h with h1 h
        injection h with h2 h3
        subst h1
        subst h2
        subst h3
        refine ⟨rfl, rfl, rfl, rfl, rfl, rfl, rfl, rfl, rfl, rfl, rfl,
          Or.inr ⟨_, rfl, rfl⟩, Or.inr ⟨rfl, rfl⟩, ?_⟩
        intro w0 hw0
        rw [hwnone] at hw0
        cases hw0

theorem availableQuantity_congr {db db2 : DB} (h : db.records = db2.records) (it : Item) :
    availableQuantity db it = availableQuantity db2 it := by
  simp [availableQuantity, totalQuantity, h]

/-- Full characterization of a successful `stockOutSave`: the committed
state appends exactly one receipt and one OUT movement cross-referencing
each other, the receipt's snapshot fields hold the requested quantity, the
resolved recipient, the bin's label and the item's availability as of the
committed record set, and rows and counters change exactly as described. -/
theorem stockOutSave_ok_spec {db db' : DB} {item : Item} {bin : StorageBin}
    {rec : StockRecord} {q : Nat} {user : UserT} {notes recipient : String} {mid rid : Nat}
    (hfreshR : ∀ x ∈ db.receipts, x.id < db.next_receipt_id)
    (hbin : findBin db bin.id = some bin)
    (hitem : findItem db item.id = some item)
    (h : stockOutSave db item bin rec q user notes recipient = .ok (db', mid, rid)) :
    ∃ r m,
      db'.receipts = db.receipts ++ [r] ∧
      db'.movements = db.movements ++ [m] ∧
      rid = db.next_receipt_id ∧ r.id = rid ∧
      mid = db.next_movement_id ∧ m.id = mid ∧
      db'.next_receipt_id = db.next_receipt_id + 1 ∧
      db'.next_movement_id = db.next_movement_id + 1 ∧
      r.stock_movement = some mid ∧
      m.warehouse_receipt = some rid ∧
      m.movement_type = .outbound ∧ m.quantity = q ∧ m.item = item.id ∧
      m.storage_bin = bin.id ∧ m.notes = notes ∧
      r.item = item.id ∧ r.issued_from_bin = bin.id ∧
      r.qty_picked = q ∧ r.quantity = q ∧
      r.qty_remaining = availableQuantity db' item ∧
      r.recipient = resolveRecipient recipient notes user ∧
      r.delivery_to = resolveRecipient recipient notes user ∧
      r.bin_location = bin.bin_id ∧
      r.plant_site = (match db'.warehouses.find? (fun w => w.id == r.issued_from_warehouse) with
        | some w => w.code
        | none => "") ∧
      db'.records = (if rec.quantity - q = 0 then
          removeRecord db.records rec.item rec.storage_bin
        else putRecord db.records { rec with quantity := rec.quantity - q }) ∧
      db'.items = db.items ∧
      ((db'.warehouses = db.warehouses ∧ db'.next_warehouse_id = db.next_warehouse_id) ∨
        (db'.warehouses = db.warehouses ++
            [{ id := db.next_warehouse_id, code := "WH-DEFAULT", capacity := 1000 }] ∧
          db'.next_warehouse_id = db.next_warehouse_id + 1)) ∧
      (∀ w0, bin.warehouse = some w0 →
        r.issued_from_warehouse = w0 ∧ db'.warehouses = db.warehouses) := by
  simp only [stockOutSave] at h
  split at h
  · exact absurd h (by simp)
  next db1 hdec =>
    obtain ⟨Drec, Dmov, Drc, Dit, Dwh, Dnm, Dnr, Dnw, Dbins⟩ := stock_out_decrement_ok hdec
    split at h
    · exact absurd h (by simp)
    next db2 binObj2 wid hatt =>
      obtain ⟨Aid, Abid, Acap, Aload, Awh, Arec, Amov, Arc, Ait, Anm, Anr, Abins, Awhs, Akeep⟩ :=
        attach_warehouse_ok hatt
      split at h
      · exact absurd h (by simp)
      next db3 hsave3 =>
        obtain ⟨hle3, hdb3⟩ := save_bin_ok hsave3
        have S3rc : db3.receipts = db.receipts := by rw [hdb3]; exact Arc.trans Drc
        have S3nr : db3.next_receipt_id = db.next_receipt_id := by rw [hdb3]; exact Anr.trans Dnr
        have S3mov : db3.movements = db.movements := by rw [hdb3]; exact Amov.trans Dmov
        have S3it : db3.items = db.items := by rw [hdb3]; exact Ait.trans Dit
        have S3nm : db3.next_movement_id = db.next_movement_id := by
          rw [hdb3]; exact Anm.trans Dnm
        have S3rec : db3.records = (if rec.quantity - q = 0 then
            removeRecord db.records rec.item rec.storage_bin
          else putRecord db.records { rec with quantity := rec.quantity - q }) := by
          rw [hdb3]; exact Arec.trans Drec
        have S3bins : db3.bins = putBin db2.bins binObj2 := by rw [hdb3]
        have S3wh : db3.warehouses = db2.warehouses := by rw [hdb3]
        have S3nw : db3.next_warehouse_id = db2.next_warehouse_id := by rw [hdb3]
        have hbid2 : binObj2.id = bin.id := Aid
        have hex2 : ∃ x ∈ db2.bins, x.id = binObj2.id := by
          simp only [hbid2]
          rcases Abins with hb | ⟨b1, hb, _⟩ <;> rw [hb]
          · rcases Dbins with hb0 | ⟨b0, hb0, _⟩ <;> rw [hb0]
            · exact findBin_mem hbin
            · exact exists_id_putBin (findBin_mem hbin)
          · rcases Dbins with hb0 | ⟨b0, hb0, _⟩ <;> rw [hb0] <;>
              first
                | exact exists_id_putBin (findBin_mem hbin)
                | exact exists_id_putBin (exists_id_putBin (findBin_mem hbin))
        have hfind3 : findBin db3 binObj2.id = some binObj2 := by
          unfold findBin
          rw [S3bins]
          exact find_putBin hex2
        have hf3 : ∀ x ∈ db3.receipts, x.id < db3.next_receipt_id := by
          simp only [S3rc, S3nr]; exact hfreshR
        rw [@receipt_save_fresh db3
          (mkStockOutReceipt db3 item binObj2 wid q user notes recipient) hf3 rfl] at h
        set MK := mkStockOutReceipt db3 item binObj2 wid q user notes recipient with hMK
        set R1 := recomputeSnapshot db3 MK with hR1
        simp only [] at h
        split at h
        · exact absurd h (by simp)
        next db5 mid5 hcm =>
          obtain ⟨hmid5, hdb5⟩ := create_movement_ok hcm
          have S5rc : db5.receipts = db.receipts ++ [R1] := by
            rw [hdb5]
            show db3.receipts ++ [R1] = _
            rw [S3rc]
          have S5bins : db5.bins = db3.bins := by rw [hdb5]
          have S5it : db5.items = db.items := by rw [hdb5]; exact S3it
          have S5wh : db5.warehouses = db2.warehouses := by rw [hdb5]; exact S3wh
          have S5nw : db5.next_warehouse_id = db2.next_warehouse_id := by
            rw [hdb5]; exact S3nw
          have S5rec : db5.records = db3.records := by rw [hdb5]
          set r2 := ({ R1 with
            stock_movement := some mid5,
            transfer_order_no := "TO-" ++ toString mid5 } : WarehouseReceipt) with hr2
          have hr2id : r2.id = db.next_receipt_id := S3nr
          have hp : db5.receipts.any (fun x => x.id == r2.id) = true := by
            rw [S5rc]
            have : r2.id = R1.id := rfl
            simp [this]
          rw [receipt_save_present hp] at h
          simp only [] at h
          injection h with h
          injection h with h1 h
          injection h with h2 h3
          subst h1
          subst h2
          subst h3
          refine ⟨recomputeSnapshot db5 r2,
            { id := db3.next_movement_id, item := item.id, storage_bin := binObj2.id,
              movement_type := .outbound, quantity := q, notes := notes,
              warehouse_receipt := some R1.id },
            ?_, ?_, ?_, rfl, ?_, ?_, ?_, ?_, rfl, rfl, rfl, rfl, rfl, hbid2, rfl, rfl,
            hbid2, rfl, rfl, ?_, rfl, rfl, ?_, ?_, ?_, ?_, ?_, ?_⟩
          · -- receipts append exactly the final receipt
            show db5.receipts.map
                (fun x => if x.id == r2.id then recomputeSnapshot db5 r2 else x) =
              db.receipts ++ [recomputeSnapshot db5 r2]
            rw [S5rc, List.map_append,
              map_receipt_replace_of_ne
                (fun x hx => by rw [hr2id]; exact Nat.ne_of_lt (hfreshR x hx))]
            simp
          · -- movements append exactly the OUT movement
            show db5.movements = _
            rw [hdb5]
            show db3.movements ++ _ = _
            rw [S3mov]
          · -- the receipt id is the next counter value
            exact S3nr
          · -- the movement id is the next counter value
            rw [hmid5]; exact S3nm
          · -- the movement row carries that id
            rw [hmid5]
          · -- receipt counter advanced by one
            show db5.next_receipt_id = _
            rw [hdb5]
            show db3.next_receipt_id + 1 = _
            rw [S3nr]
          · -- movement counter advanced by one
            show db5.next_movement_id = _
            rw [hdb5]
            show db3.next_movement_id + 1 = _
            rw [S3nm]
          · -- qty_remaining is the availability over the committed records
            have hfind5 : findItem db5 item.id = some item := by
              unfold findItem
              rw [S5it]
              exact hitem
            show (recomputeSnapshot db5 r2).qty_remaining = _
            simp only [recomputeSnapshot]
            rw [show r2.item = item.id from rfl, hfind5]
            show availableQuantity db5 item = _
            exact availableQuantity_congr rfl item
          · -- bin_location is the bin label
            have hfind5b : findBin db5 binObj2.id = some binObj2 := by
              unfold findBin at hfind3 ⊢
              rw [S5bins]
              exact hfind3
            show (recomputeSnapshot db5 r2).bin_location = _
            simp only [recomputeSnapshot]
            rw [show r2.issued_from_bin = binObj2.id from rfl, hfind5b]
            exact Abid
          · -- plant_site matches the warehouse lookup in the committed state
            show (recomputeSnapshot db5 r2).plant_site =
              (match db5.warehouses.find?
                  (fun w => w.id == (recomputeSnapshot db5 r2).issued_from_warehouse) with
                | some w => w.code
                | none => "")
            simp only [recomputeSnapshot, hr2, hR1, hMK, mkStockOutReceipt]
            rw [S5wh, S3wh]
            cases hF : db2.warehouses.find? (fun w => w.id == wid) <;> simp [hF]
          · -- committed records are exactly the decremented ones
            show db5.records = _
            rw [S5rec]
            exact S3rec
          · -- items unchanged
            show db5.items = _
            exact S5it
          · -- warehouses unchanged or extended by the default warehouse
            rcases Awhs with ⟨h1, h2⟩ | ⟨h1, h2⟩
            · refine Or.inl ⟨?_, ?_⟩
              · show db5.warehouses = _
                rw [S5wh, h1, Dwh]
              · show db5.next_warehouse_id = _
                rw [S5nw, h2, Dnw]
            · refine Or.inr ⟨?_, ?_⟩
              · show db5.warehouses = _
                rw [S5wh, h1, Dwh, Dnw]
              · show db5.next_warehouse_id = _
                rw [S5nw, h2, Dnw]
          · -- a bin that already had a warehouse keeps it
            intro w0 hw0
            obtain ⟨hwid, hdb21, _⟩ := Akeep w0 hw0
            refine ⟨hwid, ?_⟩
            show db5.warehouses = _
            rw [S5wh, hdb21, Dwh]

theorem pair_eta_of_snd {A B : Type} {p : A × B} {b : B} (h : p.2 = b) :
    p = (p.1, b) := by
  rw [← h]

/-- Lift of `stockOutSave_ok_spec` through serializer validation: a
successful `stockOut` found its item, bin and a sufficiently stocked record,
passed the reservation check, and committed the save body's effects. -/
theorem stockOut_ok_spec {db db' : DB} {itemId binId q : Nat} {user : UserT}
    {notes recipient : String} {mid rid : Nat}
    (hfreshR : ∀ x ∈ db.receipts, x.id < db.next_receipt_id)
    (h : stockOut db itemId binId q user notes recipient = (db', .ok (mid, rid))) :
    ∃ item bin rec,
      findItem db itemId = some item ∧
      findBin db binId = some bin ∧
      findRecord db itemId binId = some rec ∧
      1 ≤ q ∧ q ≤ rec.quantity ∧ (q : Int) ≤ availableQuantity db item ∧
      ∃ r m,
        db'.receipts = db.receipts ++ [r] ∧
        db'.movements = db.movements ++ [m] ∧
        rid = db.next_receipt_id ∧ r.id = rid ∧
        mid = db.next_movement_id ∧ m.id = mid ∧
        db'.next_receipt_id = db.next_receipt_id + 1 ∧
        db'.next_movement_id = db.next_movement_id + 1 ∧
        r.stock_movement = some mid ∧
        m.warehouse_receipt = some rid ∧
        m.movement_type = .outbound ∧ m.quantity = q ∧ m.item = item.id ∧
        m.storage_bin = bin.id ∧ m.notes = notes ∧
        r.item = item.id ∧ r.issued_from_bin = bin.id ∧
        r.qty_picked = q ∧ r.quantity = q ∧
        r.qty_remaining = availableQuantity db' item ∧
        r.recipient = resolveRecipient recipient notes user ∧
        r.delivery_to = resolveRecipient recipient notes user ∧
        r.bin_location = bin.bin_id ∧
        r.plant_site = (match db'.warehouses.find? (fun w => w.id == r.issued_from_warehouse) with
          | some w => w.code
          | none => "") ∧
        db'.records = (if rec.quantity - q = 0 then
            removeRecord db.records rec.item rec.storage_bin
          else putRecord db.records { rec with quantity := rec.quantity - q }) ∧
        db'.items = db.items ∧
        ((db'.warehouses = db.warehouses ∧ db'.next_warehouse_id = db.next_warehouse_id) ∨
          (db'.warehouses = db.warehouses ++
              [{ id := db.next_warehouse_id, code := "WH-DEFAULT", capacity := 1000 }] ∧
            db'.next_warehouse_id = db.next_warehouse_id + 1)) ∧
        (∀ w0, bin.warehouse = some w0 →
          r.issued_from_warehouse = w0 ∧ db'.warehouses = db.warehouses) := by
  unfold stockOut at h
  split at h
  · exact absurd h (by simp)
  next hq =>
    split at h
    · exact absurd h (by simp)
    · exact absurd h (by simp)
    next item bin hitem hbin =>
      split at h
      · exact absurd h (by simp)
      next rec hrec =>
        split at h
        · exact absurd h (by simp)
        next hqty =>
          split at h
          · exact absurd h (by simp)
          next hav =>
            split at h
            next db1x midx ridx hs =>
              injection h with h1 h
              injection h with h
              injection h with h2 h3
              subst h1
              subst h2
              subst h3
              have hbin2 : findBin db bin.id = some bin := by
                rw [findBin_id hbin]; exact hbin
              have hitem2 : findItem db item.id = some item := by
                rw [findItem_id hitem]; exact hitem
              obtain ⟨r, m, spec⟩ := stockOutSave_ok_spec hfreshR hbin2 hitem2 hs
              exact ⟨item, bin, rec, hitem, hbin, hrec, by omega, by omega, by omega,
                r, m, spec⟩
            next e he =>
              exact absurd h (by simp)

/-- A successful `stockInSave` leaves receipts, warehouses and items alone
and appends exactly one movement with the next id. -/
theorem stock_in_save_shape {db db1 : DB} {item : Item} {bin : StorageBin} {q : Nat}
    {notes : String} {mid : Nat}
    (h : stockInSave db item bin q notes = .ok (db1, mid)) :
    db1.receipts = db.receipts ∧
    db1.warehouses = db.warehouses ∧
    db1.items = db.items ∧
    db1.next_receipt_id = db.next_receipt_id ∧
    db1.next_warehouse_id = db.next_warehouse_id ∧
    db1.next_movement_id = db.next_movement_id + 1 ∧
    mid = db.next_movement_id ∧
    ∃ m, db1.movements = db.movements ++ [m] := by
  simp only [stockInSave] at h
  split at h
  next rec hrec =>
    split at h
    · exact absurd h (by simp)
    next freshBin hfind =>
      split at h
      · exact absurd h (by simp)
      next dbx binx hsr =>
        obtain ⟨hbinx, Xrec, Xbins, Xmov, Xrc, Xit, Xwh, Xnm, Xnr, Xnw⟩ :=
          stock_record_save_ok hsr
        split at h
        · exact absurd h (by simp)
        next dby hsb =>
          obtain ⟨hley, hdby⟩ := save_bin_ok hsb
          subst hdby
          obtain ⟨hmid, hdb1⟩ := create_movement_ok h
          subst hdb1
          refine ⟨Xrc, Xwh, Xit, Xnr, Xnw, ?_, ?_, ?_⟩
          · show dbx.next_movement_id + 1 = _
            rw [Xnm]
          · rw [hmid]; exact Xnm
          · exact ⟨⟨dbx.next_movement_id, item.id, bin.id, .inbound, q, notes, none⟩,
              by show dbx.movements ++ _ = _; rw [Xmov]⟩
  next hrec =>
    split at h
    · exact absurd h (by simp)
    next dba binObj1 hsr1 =>
      obtain ⟨hbin1, Yrec, Ybins, Ymov, Yrc, Yit, Ywh, Ynm, Ynr, Ynw⟩ :=
        stock_record_save_ok hsr1
      split at h
      · exact absurd h (by simp)
      next dbb binObj2 hsr2 =>
        obtain ⟨hbin2, Zrec, Zbins, Zmov, Zrc, Zit, Zwh, Znm, Znr, Znw⟩ :=
          stock_record_save_ok hsr2
        split at h
        · exact absurd h (by simp)
        next dby hsb =>
          obtain ⟨hley, hdby⟩ := save_bin_ok hsb
          subst hdby
          obtain ⟨hmid, hdb1⟩ := create_movement_ok h
          subst hdb1
          refine ⟨?_, ?_, ?_, ?_, ?_, ?_, ?_, ?_⟩
          · show dbb.receipts = _
            rw [Zrc, Yrc]
          · show dbb.warehouses = _
            rw [Zwh, Ywh]
          · show dbb.items = _
            rw [Zit, Yit]
          · show dbb.next_receipt_id = _
            rw [Znr, Ynr]
          · show dbb.next_warehouse_id = _
            rw [Znw, Ynw]
          · show dbb.next_movement_id + 1 = _
            rw [Znm, Ynm]
          · rw [hmid]
            show dbb.next_movement_id = _
            rw [Znm, Ynm]
          · exact ⟨⟨dbb.next_movement_id, item.id, bin.id, .inbound, q, notes, none⟩,
              by show dbb.movements ++ _ = _; rw [Zmov, Ymov]⟩

/-- Frame lemma for `stockIn`: receipts, warehouses, items and the receipt
and warehouse counters never change; movements gain exactly one entry on
success and none on failure. -/
theorem stockIn_frames (db : DB) (itemId binId q : Nat) (notes : String) :
    (stockIn db itemId binId q notes).1.receipts = db.receipts ∧
    (stockIn db itemId binId q notes).1.warehouses = db.warehouses ∧
    (stockIn db itemId binId q notes).1.items = db.items ∧
    (stockIn db itemId binId q notes).1.next_receipt_id = db.next_receipt_id ∧
    (stockIn db itemId binId q notes).1.next_warehouse_id = db.next_warehouse_id ∧
    db.next_movement_id ≤ (stockIn db itemId binId q notes).1.next_movement_id ∧
    ∃ tail, (stockIn db itemId binId q notes).1.movements = db.movements ++ tail ∧
      tail.length = (if isOk (stockIn db itemId binId q notes).2 then 1 else 0) := by
  rcases hev : stockIn db itemId binId q notes with ⟨db1, res⟩
  simp only [hev]
  unfold stockIn at hev
  split at hev
  · injection hev with h1 h2
    subst h1
    subst h2
    exact ⟨rfl, rfl, rfl, rfl, rfl, Nat.le_refl _, [], by simp, by simp [isOk]⟩
  · split at hev
    · injection hev with h1 h2
      subst h1
      subst h2
      exact ⟨rfl, rfl, rfl, rfl, rfl, Nat.le_refl _, [], by simp, by simp [isOk]⟩
    · injection hev with h1 h2
      subst h1
      subst h2
      exact ⟨rfl, rfl, rfl, rfl, rfl, Nat.le_refl _, [], by simp, by simp [isOk]⟩
    next item bin hitem hbin =>
      split at hev
      · injection hev with h1 h2
        subst h1
        subst h2
        exact ⟨rfl, rfl, rfl, rfl, rfl, Nat.le_refl _, [], by simp, by simp [isOk]⟩
      · split at hev
        next dbs mids hsave =>
          injection hev with h1 h2
          subst h1
          subst h2
          obtain ⟨Src, Swh, Sit, Snr, Snw, Snm, hmid, m, Smov⟩ := stock_in_save_shape hsave
          exact ⟨Src, Swh, Sit, Snr, Snw, by omega, [m], Smov, by simp [isOk]⟩
        next e hsave =>
          injection hev with h1 h2
          subst h1
          subst h2
          exact ⟨rfl, rfl, rfl, rfl, rfl, Nat.le_refl _, [], by simp, by simp [isOk]⟩

/-- Frame lemma for a failed `stockOut`: nothing but the alert log changes. -/
theorem stockOut_err_frames {db : DB} {itemId binId q : Nat} {user : UserT}
    {notes recipient : String}
    (h : isOk (stockOut db itemId binId q user notes recipient).2 = false) :
    (stockOut db itemId binId q user notes recipient).1.records = db.records ∧
    (stockOut db itemId binId q user notes recipient).1.bins = db.bins ∧
    (stockOut db itemId binId q user notes recipient).1.movements = db.movements ∧
    (stockOut db itemId binId q user notes recipient).1.receipts = db.receipts ∧
    (stockOut db itemId binId q user notes recipient).1.items = db.items ∧
    (stockOut db itemId binId q user notes recipient).1.warehouses = db.warehouses ∧
    (stockOut db itemId binId q user notes recipient).1.next_movement_id =
      db.next_movement_id ∧
    (stockOut db itemId binId q user notes recipient).1.next_receipt_id =
      db.next_receipt_id ∧
    (stockOut db itemId binId q user notes recipient).1.next_warehouse_id =
      db.next_warehouse_id := by
  rcases hev : stockOut db itemId binId q user notes recipient with ⟨db1, res⟩
  simp only [hev] at h ⊢
  unfold stockOut at hev
  split at hev
  · injection hev with h1 h2
    subst h1
    exact ⟨rfl, rfl, rfl, rfl, rfl, rfl, rfl, rfl, rfl⟩
  · split at hev
    · injection hev with h1 h2
      subst h1
      exact ⟨rfl, rfl, rfl, rfl, rfl, rfl, rfl, rfl, rfl⟩
    · injection hev with h1 h2
      subst h1
      exact ⟨rfl, rfl, rfl, rfl, rfl, rfl, rfl, rfl, rfl⟩
    next item bin hitem hbin =>
      split at hev
      · injection hev with h1 h2
        subst h1
        exact ⟨rfl, rfl, rfl, rfl, rfl, rfl, rfl, rfl, rfl⟩
      next rec hrec =>
        split at hev
        · injection hev with h1 h2
          subst h1
          exact ⟨rfl, rfl, rfl, rfl, rfl, rfl, rfl, rfl, rfl⟩
        · split at hev
          · injection hev with h1 h2
            subst h1
            exact ⟨rfl, rfl, rfl, rfl, rfl, rfl, rfl, rfl, rfl⟩
          · split at hev
            next db1x midx ridx hs =>
              injection hev with h1 h2
              subst h2
              exact absurd h (by simp [isOk])
            next e he =>
              injection hev with h1 h2
              subst h1
              exact ⟨rfl, rfl, rfl, rfl, rfl, rfl, rfl, rfl, rfl⟩

/-- Reachability bookkeeping: every stored receipt id is below the receipt
counter, every receipt's movement reference is below the movement counter,
and every warehouse id is below the warehouse counter. -/
structure WF (db : DB) : Prop where
  receiptIds : ∀ r ∈ db.receipts, r.id < db.next_receipt_id
  receiptMovRefs : ∀ r ∈ db.receipts, ∀ m, r.stock_movement = some m → m < db.next_movement_id
  warehouseIds : ∀ w ∈ db.warehouses, w.id < db.next_warehouse_id

theorem wf_stockIn {db : DB} (itemId binId q : Nat) (notes : String) (hwf : WF db) :
    WF (stockIn db itemId binId q notes).1 := by
  obtain ⟨Src, Swh, Sit, Snr, Snw, Snm, tail, Smov, _⟩ := stockIn_frames db itemId binId q notes
  refine ⟨?_, ?_, ?_⟩
  · simp only [Src, Snr]
    exact hwf.receiptIds
  · intro r hr m hm
    rw [Src] at hr
    exact Nat.lt_of_lt_of_le (hwf.receiptMovRefs r hr m hm) Snm
  · simp only [Swh, Snw]
    exact hwf.warehouseIds

theorem wf_stockOut {db : DB} (itemId binId q : Nat) (user : UserT)
    (notes recipient : String) (hwf : WF db) :
    WF (stockOut db itemId binId q user notes recipient).1 := by
  cases hok : isOk (stockOut db itemId binId q user notes recipient).2
  · obtain ⟨_, _, _, Erc, _, Ewh, Enm, Enr, Enw⟩ := stockOut_err_frames hok
    refine ⟨?_, ?_, ?_⟩
    · simp only [Erc, Enr]
      exact hwf.receiptIds
    · simp only [Erc, Enm]
      exact hwf.receiptMovRefs
    · simp only [Ewh, Enw]
      exact hwf.warehouseIds
  · rcases hres : (stockOut db itemId binId q user notes recipient).2 with e | p
    · rw [hres] at hok
      simp [isOk] at hok
    · rcases p with ⟨mid, rid⟩
      obtain ⟨item, bin, rec, _, _, _, _, _, _, r, m, Frc, Fmov, (hridv : rid = _),
          hrid, (hmidv : mid = _), hmid, Fnr, Fnm, hrsm, _, _, _, _, _, _, _, _, _, _,
          _, _, _, _, _, _, _, Fwh, _⟩ :=
        stockOut_ok_spec hwf.receiptIds (pair_eta_of_snd hres)
      refine ⟨?_, ?_, ?_⟩
      · intro x hx
        rw [Frc] at hx
        rw [Fnr]
        rcases List.mem_append.mp hx with hold | hnew
        · exact Nat.lt_succ_of_lt (hwf.receiptIds x hold)
        · have : x = r := by simpa using hnew
          subst this
          rw [hrid, hridv]
          exact Nat.lt_succ_self _
      · intro x hx mref hmref
        rw [Frc] at hx
        rw [Fnm]
        rcases List.mem_append.mp hx with hold | hnew
        · exact Nat.lt_succ_of_lt (hwf.receiptMovRefs x hold mref hmref)
        · have : x = r := by simpa using hnew
          subst this
          rw [hrsm] at hmref
          injection hmref with hmref
          rw [← hmref, hmidv]
          exact Nat.lt_succ_self _
      · intro w hw
        rcases Fwh with ⟨hw1, hw2⟩ | ⟨hw1, hw2⟩
        · rw [hw1] at hw
          rw [hw2]
          exact hwf.warehouseIds w hw
        · rw [hw1] at hw
          rw [hw2]
          rcases List.mem_append.mp hw with hold | hnew
          · exact Nat.lt_succ_of_lt (hwf.warehouseIds w hold)
          · have : w = { id := db.next_warehouse_id, code := "WH-DEFAULT", capacity := 1000 } := by
              simpa using hnew
            subst this
            exact Nat.lt_succ_self _

theorem applyOp_wf {db : DB} (op : Op) (hwf : WF db) : WF (applyOp db op).1 := by
  cases op with
  | opIn i b q n => exact wf_stockIn i b q n hwf
  | opOut i b q u n rc => exact wf_stockOut i b q u n rc hwf

/-- Each call only appends to the movement ledger, exactly one row per
success; it also only appends to the receipts table. -/
theorem applyOp_append {db : DB} (op : Op) (hwf : WF db) :
    (∃ mtail, (applyOp db op).1.movements = db.movements ++ mtail ∧
      mtail.length = (if (applyOp db op).2 then 1 else 0)) ∧
    (∃ rtail, (applyOp db op).1.receipts = db.receipts ++ rtail) := by
  cases op with
  | opIn i b q n =>
    obtain ⟨Src, _, _, _, _, _, tail, Smov, Slen⟩ := stockIn_frames db i b q n
    exact ⟨⟨tail, Smov, Slen⟩, [], by simp [applyOp, Src]⟩
  | opOut i b q u n rc =>
    cases hok : isOk (stockOut db i b q u n rc).2
    · obtain ⟨_, _, Emov, Erc, _, _, _, _, _⟩ := stockOut_err_frames hok
      exact ⟨⟨[], by simp [applyOp, Emov], by simp [applyOp, hok]⟩,
        [], by simp [applyOp, Erc]⟩
    · rcases hres : (stockOut db i b q u n rc).2 with e | p
      · rw [hres] at hok
        simp [isOk] at hok
      · rcases p with ⟨mid, rid⟩
        obtain ⟨item, bin, rec, _, _, _, _, _, _, r, m, Frc, Fmov, _⟩ :=
          stockOut_ok_spec hwf.receiptIds (pair_eta_of_snd hres)
        refine ⟨⟨[m], by simp [applyOp, Fmov], ?_⟩, ⟨[r], by simp [applyOp, Frc]⟩⟩
        simp [applyOp, hres, isOk]

theorem runOps_wf {db : DB} (ops : List Op) (hwf : WF db) : WF (runOps db ops) := by
  induction ops generalizing db with
  | nil => exact hwf
  | cons op rest ih => exact ih (applyOp_wf op hwf)

/-- Over a whole call sequence the receipts table is only appended to. -/
theorem runOps_receipts {db : DB} (ops : List Op) (hwf : WF db) :
    ∃ rtail, (runOps db ops).receipts = db.receipts ++ rtail := by
  induction ops generalizing db with
  | nil => exact ⟨[], by simp [runOps]⟩
  | cons op rest ih =>
    obtain ⟨_, rtail1, h1⟩ := applyOp_append op hwf
    obtain ⟨rtail2, h2⟩ := ih (applyOp_wf op hwf)
    exact ⟨rtail1 ++ rtail2, by simp [runOps, h2, h1]⟩

/-- Over a whole call sequence the movement ledger is only appended to, one
row per successful call. -/
theorem runOps_movements {db : DB} (ops : List Op) (hwf : WF db) :
    ∃ mtail, (runOps db ops).movements = db.movements ++ mtail ∧
      mtail.length = successCount db ops := by
  induction ops generalizing db with
  | nil => exact ⟨[], by simp [runOps], by simp [successCount]⟩
  | cons op rest ih =>
    obtain ⟨⟨mtail1, h1, hl1⟩, _⟩ := applyOp_append op hwf
    obtain ⟨mtail2, h2, hl2⟩ := ih (applyOp_wf op hwf)
    refine ⟨mtail1 ++ mtail2, by simp [runOps, h2, h1], ?_⟩
    simp only [List.length_append, hl1, hl2, successCount]

theorem resolveRecipient_ne_empty (r n : String) (u : UserT) :
    resolveRecipient r n u ≠ "" := by
  unfold resolveRecipient
  split
  next h => exact h
  next =>
    split
    next h => exact h
    next =>
      split
      next h => exact h
      next =>
        split
        next h => exact h
        next => simp

/-! ### Claim theorems -/

/-- **C4.** A `stockOut` on an existing item and bin with no (item, bin)
stock record, or one holding less than the requested quantity, fails with
`InsufficientStock`, commits exactly one CRITICAL alert referencing both
that bin and that item, and leaves every stock record, bin, movement and
receipt untouched. -/
theorem c4_insufficient_stock_alert {db : DB} {itemId binId q : Nat} {user : UserT}
    {notes recipient : String} {item : Item} {bin : StorageBin}
    (hq : 1 ≤ q)
    (hitem : findItem db itemId = some item)
    (hbin : findBin db binId = some bin)
    (hshort : ((findRecord db itemId binId).map StockRecord.quantity).getD 0 < q) :
    (stockOut db itemId binId q user notes recipient).2 = .error .insufficientStock ∧
    (stockOut db itemId binId q user notes recipient).1.records = db.records ∧
    (stockOut db itemId binId q user notes recipient).1.bins = db.bins ∧
    (stockOut db itemId binId q user notes recipient).1.movements = db.movements ∧
    (stockOut db itemId binId q user notes recipient).1.receipts = db.receipts ∧
    (stockOut db itemId binId q user notes recipient).1.alerts = db.alerts ++
      [{ alert_type := .critical, kind := .insufficientStock,
         related_item := some item.id, related_bin := some bin.id }] := by
  rcases hev : stockOut db itemId binId q user notes recipient with ⟨db1, res⟩
  simp only [hev]
  unfold stockOut at hev
  rw [if_neg (by omega)] at hev
  simp only [hitem, hbin] at hev
  cases hr : findRecord db itemId binId with
  | none =>
    simp only [hr] at hev
    injection hev with h1 h2
    subst h1
    subst h2
    exact ⟨rfl, rfl, rfl, rfl, rfl, rfl⟩
  | some rec =>
    have hlt : rec.quantity < q := by
      rw [hr] at hshort
      simpa using hshort
    simp only [hr] at hev
    rw [if_pos hlt] at hev
    injection hev with h1 h2
    subst h1
    subst h2
    exact ⟨rfl, rfl, rfl, rfl, rfl, rfl⟩

/-- **C4 witness.** On `db0` (no stock record), a stock-out of 5 fails with
`InsufficientStock` and only adds the CRITICAL alert. -/
theorem c4_witness :
    (1 ≤ 5 ∧ findItem db0 1 = some item1 ∧ findBin db0 1 = some bin1 ∧
      ((findRecord db0 1 1).map StockRecord.quantity).getD 0 < 5) ∧
    ((stockOut db0 1 1 5 user0 "" "").2 = .error .insufficientStock ∧
      (stockOut db0 1 1 5 user0 "" "").1.records = db0.records ∧
      (stockOut db0 1 1 5 user0 "" "").1.bins = db0.bins ∧
      (stockOut db0 1 1 5 user0 "" "").1.movements = db0.movements ∧
      (stockOut db0 1 1 5 user0 "" "").1.receipts = db0.receipts ∧
      (stockOut db0 1 1 5 user0 "" "").1.alerts = db0.alerts ++
        [{ alert_type := .critical, kind := .insufficientStock,
           related_item := some item1.id, related_bin := some bin1.id }]) :=
  ⟨⟨by decide, by decide, by decide, by decide⟩,
    c4_insufficient_stock_alert (by decide) (by decide) (by decide) (by decide)⟩

/-- **C5.** A `stockOut` whose (item, bin) record holds enough stock but
whose requested quantity exceeds the item's global `available_quantity`
fails with `ReservationConflict`, commits exactly one WARNING alert
referencing the item (and no bin), and mutates no record, bin, movement or
receipt.  The hypothesis `q ≤ rec.quantity` is exactly the per-bin check
that runs first; only when it passes is the reservation check reached. -/
theorem c5_reservation_conflict_alert {db : DB} {itemId binId q : Nat} {user : UserT}
    {notes recipient : String} {item : Item} {bin : StorageBin} {rec : StockRecord}
    (hq : 1 ≤ q)
    (hitem : findItem db itemId = some item)
    (hbin : findBin db binId = some bin)
    (hrec : findRecord db itemId binId = some rec)
    (hge : q ≤ rec.quantity)
    (hav : (q : Int) > availableQuantity db item) :
    (stockOut db itemId binId q user notes recipient).2 = .error .reservationConflict ∧
    (stockOut db itemId binId q user notes recipient).1.records = db.records ∧
    (stockOut db itemId binId q user notes recipient).1.bins = db.bins ∧
    (stockOut db itemId binId q user notes recipient).1.movements = db.movements ∧
    (stockOut db itemId binId q user notes recipient).1.receipts = db.receipts ∧
    (stockOut db itemId binId q user notes recipient).1.alerts = db.alerts ++
      [{ alert_type := .warning, kind := .reservationConflict,
         related_item := some item.id, related_bin := none }] := by
  rcases hev : stockOut db itemId binId q user notes recipient with ⟨db1, res⟩
  simp only [hev]
  unfold stockOut at hev
  rw [if_neg (by omega)] at hev
  simp only [hitem, hbin, hrec] at hev
  rw [if_neg (by omega), if_pos hav] at hev
  injection hev with h1 h2
  subst h1
  subst h2
  exact ⟨rfl, rfl, rfl, rfl, rfl, rfl⟩

/-- An item with 3 of its 5 units reserved, stocked 5-deep in one bin. -/
def itemR : Item := { id := 1, reserved_quantity := 3, min_stock_level := 0 }

/-- State for the C5 witness: record (1,1) holds 5, availability is 2. -/
def dbR : DB :=
  { db0 with
      items := [itemR],
      records := [⟨1, 1, 5⟩],
      bins := [{ bin1 with current_load := 5 }] }

/-- **C5 witness.** Requesting 5 with only 2 available (5 total minus 3
reserved) fails with `ReservationConflict` and a WARNING alert on the item. -/
theorem c5_witness :
    (1 ≤ 5 ∧ findItem dbR 1 = some itemR ∧
      findBin dbR 1 = some { bin1 with current_load := 5 } ∧
      findRecord dbR 1 1 = some ⟨1, 1, 5⟩ ∧ 5 ≤ (⟨1, 1, 5⟩ : StockRecord).quantity ∧
      ((5 : Nat) : Int) > availableQuantity dbR itemR) ∧
    ((stockOut dbR 1 1 5 user0 "" "").2 = .error .reservationConflict ∧
      (stockOut dbR 1 1 5 user0 "" "").1.records = dbR.records ∧
      (stockOut dbR 1 1 5 user0 "" "").1.bins = dbR.bins ∧
      (stockOut dbR 1 1 5 user0 "" "").1.movements = dbR.movements ∧
      (stockOut dbR 1 1 5 user0 "" "").1.receipts = dbR.receipts ∧
      (stockOut dbR 1 1 5 user0 "" "").1.alerts = dbR.alerts ++
        [{ alert_type := .warning, kind := .reservationConflict,
           related_item := some itemR.id, related_bin := none }]) :=
  ⟨⟨by decide, by decide, by decide, by decide, by decide, by decide⟩,
    @c5_reservation_conflict_alert dbR 1 1 5 user0 "" "" itemR
      { bin1 with current_load := 5 } ⟨1, 1, 5⟩ (by decide) (by decide) (by decide)
      (by decide) (by decide) (by decide)⟩

/-- **C6 (amended).** The full/near-full rules are an `if`/`elif` pair, so a
committed write of a bin at (or above) capacity with positive capacity
creates exactly one new alert: the CRITICAL "full" one — and no WARNING
"near full" row. -/
theorem c6_amended_full_bin_one_alert {db db' : DB} {b : StorageBin}
    (hcap : 0 < b.capacity) (hfull : b.capacity ≤ b.current_load)
    (h : StorageBin.save db b = .ok db') :
    db'.alerts = db.alerts ++
      [{ alert_type := .critical, kind := .binFull,
         related_item := none, related_bin := some b.id }] := by
  obtain ⟨hle, hdb⟩ := save_bin_ok h
  subst hdb
  show db.alerts ++ checkBinAlerts b = _
  have hload : b.current_load = b.capacity := Nat.le_antisymm hle hfull
  have h2 : ¬((b.current_load == 0) = true) := by simp; omega
  have h3 : ¬(10 * b.current_load ≤ b.capacity) := by omega
  rw [checkBinAlerts, if_pos hfull, if_neg h2, if_neg h3]
  simp

/-- The committed state of the C6 amended witness. -/
def dbC6s : DB :=
  { dbC6 with
      bins := putBin dbC6.bins binFull10,
      alerts := dbC6.alerts ++ checkBinAlerts binFull10 }

/-- **C6 witness.** Saving the 10/10 bin commits exactly the CRITICAL
"full" alert. -/
theorem c6_witness :
    (0 < binFull10.capacity ∧ binFull10.capacity ≤ binFull10.current_load ∧
      StorageBin.save dbC6 binFull10 = .ok dbC6s) ∧
    dbC6s.alerts = dbC6.alerts ++
      [{ alert_type := .critical, kind := .binFull,
         related_item := none, related_bin := some binFull10.id }] :=
  ⟨⟨by decide, by decide, by decide⟩,
    c6_amended_full_bin_one_alert (by decide) (by decide) (by decide)⟩

/-- **C7.** Every successful `stockOut` appends exactly one receipt and one
OUT movement, cross-referencing each other; the receipt's `qty_picked` is
the requested quantity and its `qty_remaining` is the item's
`available_quantity` over the committed (decremented) records; the call
returns both identifiers; and no pre-existing receipt references the new
movement. -/
theorem c7_stockout_receipt_movement_pair {db : DB} {itemId binId q : Nat} {user : UserT}
    {notes recipient : String} {mid rid : Nat} (hwf : WF db)
    (h : (stockOut db itemId binId q user notes recipient).2 = .ok (mid, rid)) :
    ∃ item r m,
      findItem db itemId = some item ∧
      (stockOut db itemId binId q user notes recipient).1.receipts = db.receipts ++ [r] ∧
      (stockOut db itemId binId q user notes recipient).1.movements = db.movements ++ [m] ∧
      r.id = rid ∧ m.id = mid ∧ r.stock_movement = some mid ∧
      m.warehouse_receipt = some rid ∧ m.movement_type = .outbound ∧ m.quantity = q ∧
      r.qty_picked = q ∧
      r.qty_remaining =
        availableQuantity (stockOut db itemId binId q user notes recipient).1 item ∧
      ∀ rOld ∈ db.receipts, rOld.stock_movement ≠ some mid := by
  obtain ⟨item, bin, rec, hitem, hbin, hrec, hq1, hq2, hav, r, m, Frc, Fmov, hridv, hrid,
      hmidv, hmid, Fnr, Fnm, hrsm, hmwr, hmt, hmq, hmi, hmsb, hmn, hri, hrib, hrqp, hrq,
      hrqr, hrrec, hrdel, hrbl, hrps, Frec, Fit, Fwh, Fkeep⟩ :=
    stockOut_ok_spec hwf.receiptIds (pair_eta_of_snd h)
  refine ⟨item, r, m, hitem, Frc, Fmov, hrid, hmid, hrsm, hmwr, hmt, hmq, hrqp, hrqr, ?_⟩
  intro rOld hrOld heq
  have := hwf.receiptMovRefs rOld hrOld mid heq
  omega

/-- State for the stock-out witnesses: record (1,1) holds 30 units. -/
def dbW : DB :=
  { db0 with
      records := [⟨1, 1, 30⟩],
      bins := [{ bin1 with current_load := 30 }] }

/-- `WF` holds for `dbW`. -/
theorem dbW_wf : WF dbW := ⟨by simp [dbW, db0], by simp [dbW, db0], by decide⟩

/-- **C7 witness.** Stock-out of 10 from `dbW` succeeds as movement 0 /
receipt 0 with the claimed receipt-movement pairing. -/
theorem c7_witness :
    (WF dbW ∧ (stockOut dbW 1 1 10 user0 "" "").2 = .ok (0, 0)) ∧
    (∃ item r m,
      findItem dbW 1 = some item ∧
      (stockOut dbW 1 1 10 user0 "" "").1.receipts = dbW.receipts ++ [r] ∧
      (stockOut dbW 1 1 10 user0 "" "").1.movements = dbW.movements ++ [m] ∧
      r.id = 0 ∧ m.id = 0 ∧ r.stock_movement = some 0 ∧
      m.warehouse_receipt = some 0 ∧ m.movement_type = .outbound ∧ m.quantity = 10 ∧
      r.qty_picked = 10 ∧
      r.qty_remaining = availableQuantity (stockOut dbW 1 1 10 user0 "" "").1 item ∧
      ∀ rOld ∈ dbW.receipts, rOld.stock_movement ≠ some 0) :=
  ⟨⟨dbW_wf, by decide⟩,
    @c7_stockout_receipt_movement_pair dbW 1 1 10 user0 "" "" 0 0 dbW_wf (by decide)⟩

/-- **C8.** The receipt committed by a successful `stockOut` keeps its
snapshot fields: read right after the call, or after any further sequence
of stock-in/stock-out calls, the receipt at the appended position holds the
same row, whose `qty_picked`, `qty_remaining`, `recipient`, `delivery_to`,
`bin_location` and `plant_site` are the values captured when it was created
(the finalizing re-save recomputed them over an unchanged state). -/
theorem c8_receipt_snapshot_frozen {db : DB} {itemId binId q : Nat} {user : UserT}
    {notes recipient : String} {mid rid : Nat} (ops : List Op) (hwf : WF db)
    (h : (stockOut db itemId binId q user notes recipient).2 = .ok (mid, rid)) :
    ∃ item bin r,
      findItem db itemId = some item ∧
      findBin db binId = some bin ∧
      ((stockOut db itemId binId q user notes recipient).1.receipts).get?
        db.receipts.length = some r ∧
      ((runOps (stockOut db itemId binId q user notes recipient).1 ops).receipts).get?
        db.receipts.length = some r ∧
      r.qty_picked = q ∧
      r.qty_remaining =
        availableQuantity (stockOut db itemId binId q user notes recipient).1 item ∧
      r.recipient = resolveRecipient recipient notes user ∧
      r.delivery_to = resolveRecipient recipient notes user ∧
      r.bin_location = bin.bin_id ∧
      (∀ wid w, bin.warehouse = some wid →
        db.warehouses.find? (fun x => x.id == wid) = some w → r.plant_site = w.code) := by
  obtain ⟨item, bin, rec, hitem, hbin, hrec, hq1, hq2, hav, r, m, Frc, Fmov, hridv, hrid,
      hmidv, hmid, Fnr, Fnm, hrsm, hmwr, hmt, hmq, hmi, hmsb, hmn, hri, hrib, hrqp, hrq,
      hrqr, hrrec, hrdel, hrbl, hrps, Frec, Fit, Fwh, Fkeep⟩ :=
    stockOut_ok_spec hwf.receiptIds (pair_eta_of_snd h)
  refine ⟨item, bin, r, hitem, hbin, ?_, ?_, hrqp, hrqr, hrrec, hrdel, hrbl, ?_⟩
  · rw [Frc]
    exact List.get?_concat_length db.receipts r
  · obtain ⟨rtail, hrt⟩ := runOps_receipts ops
      (wf_stockOut itemId binId q user notes recipient hwf)
    rw [hrt, Frc, List.get?_append (by simp)]
    exact List.get?_concat_length db.receipts r
  · intro wid w hw hfindw
    obtain ⟨hiw, hwhs⟩ := Fkeep wid hw
    rw [hrps, hwhs, hiw, hfindw]

/-- **C8 witness.** The receipt of the `dbW` stock-out keeps its snapshot
through a later stock-in call. -/
theorem c8_witness :
    (WF dbW ∧ (stockOut dbW 1 1 10 user0 "" "").2 = .ok (0, 0)) ∧
    (∃ item bin r,
      findItem dbW 1 = some item ∧
      findBin dbW 1 = some bin ∧
      ((stockOut dbW 1 1 10 user0 "" "").1.receipts).get? dbW.receipts.length = some r ∧
      ((runOps (stockOut dbW 1 1 10 user0 "" "").1 [.opIn 1 1 5 ""]).receipts).get?
        dbW.receipts.length = some r ∧
      r.qty_picked = 10 ∧
      r.qty_remaining = availableQuantity (stockOut dbW 1 1 10 user0 "" "").1 item ∧
      r.recipient = resolveRecipient "" "" user0 ∧
      r.delivery_to = resolveRecipient "" "" user0 ∧
      r.bin_location = bin.bin_id ∧
      (∀ wid w, bin.warehouse = some wid →
        dbW.warehouses.find? (fun x => x.id == wid) = some w → r.plant_site = w.code)) :=
  ⟨⟨dbW_wf, by decide⟩,
    @c8_receipt_snapshot_frozen dbW 1 1 10 user0 "" "" 0 0 [.opIn 1 1 5 ""] dbW_wf
      (by decide)⟩

/-- **C9.** The movement ledger is append-only across any sequence of
stock-in/stock-out calls: the prior rows survive as a prefix, and the number
of appended rows is exactly the number of calls that completed
successfully. -/
theorem c9_ledger_append_only (db : DB) (ops : List Op) (hwf : WF db) :
    ∃ mtail, (runOps db ops).movements = db.movements ++ mtail ∧
      mtail.length = successCount db ops :=
  runOps_movements ops hwf

/-- **C9 witness.** Two successful calls and one failing call on `db0`
append exactly two movement rows. -/
theorem c9_witness :
    WF db0 ∧
    (∃ mtail,
      (runOps db0 [.opIn 1 1 10 "", .opOut 1 1 50 user0 "" "", .opOut 1 1 10 user0 "" ""]
        ).movements = db0.movements ++ mtail ∧
      mtail.length = successCount db0
        [.opIn 1 1 10 "", .opOut 1 1 50 user0 "" "", .opOut 1 1 10 user0 "" ""]) :=
  have hwf : WF db0 := ⟨by simp [db0], by simp [db0], by decide⟩
  ⟨hwf, c9_ledger_append_only db0 _ hwf⟩

/-- **C10.** A successful `stockOut` with a blank recipient still commits a
receipt whose `recipient` and `delivery_to` are non-empty: the notes text if
non-empty, else the user's name, else the user's email, else the literal
"Unknown Recipient". -/
theorem c10_blank_recipient_fallback {db : DB} {itemId binId q : Nat} {user : UserT}
    {notes : String} {mid rid : Nat} (hwf : WF db)
    (h : (stockOut db itemId binId q user notes "").2 = .ok (mid, rid)) :
    ∃ r,
      (stockOut db itemId binId q user notes "").1.receipts = db.receipts ++ [r] ∧
      r.recipient = (if notes ≠ "" then notes
        else if user.name ≠ "" then user.name
        else if user.email ≠ "" then user.email
        else "Unknown Recipient") ∧
      r.delivery_to = r.recipient ∧
      r.recipient ≠ "" := by
  obtain ⟨item, bin, rec, hitem, hbin, hrec, hq1, hq2, hav, r, m, Frc, Fmov, hridv, hrid,
      hmidv, hmid, Fnr, Fnm, hrsm, hmwr, hmt, hmq, hmi, hmsb, hmn, hri, hrib, hrqp, hrq,
      hrqr, hrrec, hrdel, hrbl, hrps, Frec, Fit, Fwh, Fkeep⟩ :=
    stockOut_ok_spec hwf.receiptIds (pair_eta_of_snd h)
  refine ⟨r, Frc, ?_, ?_, ?_⟩
  · rw [hrrec]
    unfold resolveRecipient
    simp
  · rw [hrdel, hrrec]
  · rw [hrrec]
    exact resolveRecipient_ne_empty "" notes user

/-- State for the C10 witness: as `dbW`, requested by a user with no name
and no email. -/
theorem c10_witness :
    (WF dbW ∧ (stockOut dbW 1 1 10 userBlank "" "").2 = .ok (0, 0)) ∧
    (∃ r,
      (stockOut dbW 1 1 10 userBlank "" "").1.receipts = dbW.receipts ++ [r] ∧
      r.recipient = (if ("" : String) ≠ "" then ""
        else if userBlank.name ≠ "" then userBlank.name
        else if userBlank.email ≠ "" then userBlank.email
        else "Unknown Recipient") ∧
      r.delivery_to = r.recipient ∧
      r.recipient ≠ "") :=
  ⟨⟨dbW_wf, by decide⟩,
    @c10_blank_recipient_fallback dbW 1 1 10 userBlank "" 0 0 dbW_wf (by decide)⟩

end Inventory
